import Mathlib

/-!
# Verification of the tweet-broadcast repository core

Shallow embedding, in Lean 4, of the parts of the `tweet-broadcast` Rust
repository that the specification claims talk about:

* the backoff state machine (`crates/tweet-fetch/src/backoff.rs`, identical
  formulas in `src/backoff.rs`);
* the trend-scheduler penalty update (`crates/tweet-broadcast/src/search.rs`,
  `TrendingContext::insert_inner`);
* the List-engine cursor logic (`crates/tweet-fetch/src/list.rs`,
  `ListHead::load_and_update` and `load_list_since`);
* the include-augmenter (`src/tweet/util.rs`, `needs_augment` /
  `load_batch_augment_data`, with `ResponseIncludes::augment` from
  `src/tweet/model.rs`);
* the webhook dispatcher (`crates/tweet-discord/src/lib.rs`,
  `execute_webhook`);
* the filtered-stream line consumer (`crates/tweet-fetch/src/stream.rs`,
  `make_stream`);
* the bulk retrieval entry point (`crates/tweet-fetch/src/lib.rs`,
  `TwitterClient::retrieve`).

Machine integers are modelled as `Nat` with explicit saturation where the Rust
code saturates (`saturating_mul`, `saturating_sub` on `u32`); `i32` values
coming from the wire are `Int`.  Tweet IDs are Lean `String`s; Rust's `Ord`
for `String` (byte-lexicographic, which on valid UTF-8 coincides with
code-point-lexicographic order) is embedded as lexicographic order on the
character list, which is propositionally the same relation as Lean's `<` on
`String` (see `idLt_iff`) while remaining kernel-computable.
-/

/-! ## Backoff state machine (`crates/tweet-fetch/src/backoff.rs`) -/

/-- Failure classification, `enum BackoffType` (the payload-free version used
by `Backoff::run_fn` in `crates/tweet-fetch/src/backoff.rs`). -/
inductive BackoffType where
  | ratelimit
  | server
  | network
deriving DecidableEq, Repr

/-- `enum BackoffState` from `crates/tweet-fetch/src/backoff.rs` (same shape as
`enum BackoffType` of `src/backoff.rs`): `None` or a class with a `u32`
attempt counter. -/
inductive BackoffState where
  | none
  | ratelimit (n : Nat)
  | server (n : Nat)
  | network (n : Nat)
deriving DecidableEq, Repr

/-- `BackoffState::sleep_msecs`.  The Rust shifts are `1u64 << n.saturating_sub(k)`,
which on `Nat` is `2 ^ (n - k)` (truncated subtraction is saturating). -/
def BackoffState.sleep_msecs : BackoffState → Nat
  | .none => 0
  | .ratelimit n => (if n < 6 then 2 ^ (n - 2) else 10) * 60 * 1000
  | .network n => if n < 128 then n * 250 else 32000
  | .server n => (if n < 6 then 2 ^ (n - 1) else 60) * 1000

/-- `BackoffState::should_backoff`: true unless the state is `None`. -/
def BackoffState.should_backoff : BackoffState → Bool
  | .none => false
  | _ => true

/-- `BackoffState::add_ratelimit`. -/
def BackoffState.add_ratelimit : BackoffState → BackoffState
  | .ratelimit n => .ratelimit (n + 1)
  | _ => .ratelimit 1

/-- `BackoffState::add_server`. -/
def BackoffState.add_server : BackoffState → BackoffState
  | .server n => .server (n + 1)
  | _ => .server 1

/-- `BackoffState::add_network`. -/
def BackoffState.add_network : BackoffState → BackoffState
  | .network n => .network (n + 1)
  | _ => .network 1

/-- The dispatch performed by the `match` in `Backoff::run_fn`:
`Err(BackoffType::X) => state.add_x()`. -/
def BackoffState.record (st : BackoffState) : BackoffType → BackoffState
  | .ratelimit => st.add_ratelimit
  | .server => st.add_server
  | .network => st.add_network

/-- Whether the state already carries the given class (so that `record` would
increment instead of resetting the counter). -/
def BackoffState.sameClass : BackoffState → BackoffType → Bool
  | .ratelimit _, .ratelimit => true
  | .server _, .server => true
  | .network _, .network => true
  | _, _ => false

/-- The state `class(1)` reached on the first failure of a class. -/
def BackoffType.initState : BackoffType → BackoffState
  | .ratelimit => .ratelimit 1
  | .server => .server 1
  | .network => .network 1

/-- Trace semantics of the loop body of `Backoff::run_fn`: given the list of
failure classes returned by successive invocations of `op` (after which `op`
succeeds and the loop returns), the list of sleep durations (ms) performed, in
order.  Each loop iteration first sleeps `state.sleep_msecs()` when
`state.should_backoff()`, then invokes `op`; an `Err(class)` runs
`state.record(class)` and iterates.  A fresh `run_fn` starts from
`BackoffState.none`. -/
def runSleepTrace : BackoffState → List BackoffType → List Nat
  | st, [] => if st.should_backoff then [st.sleep_msecs] else []
  | st, e :: rest =>
      (if st.should_backoff then [st.sleep_msecs] else []) ++
        runSleepTrace (st.record e) rest

/-! ## Trend-scheduler penalty (`crates/tweet-broadcast/src/search.rs`) -/

/-- `u32::MAX`, the saturation bound of the `penalty` field of
`TrendingEntry`. -/
def u32max : Nat := 2 ^ 32 - 1

/-- The penalty update inside `TrendingContext::insert_inner` for a re-poll
with a previous entry present.  `slow` is the outcome of the `f64` comparison
`score - entry.previous_score < 1.0`.  The Rust code is
`if slow { if penalty == 0 { 1 } else { penalty.saturating_mul(2) } }
 else { penalty.saturating_sub(2) }` on `u32`. -/
def penaltyStep (penalty : Nat) (slow : Bool) : Nat :=
  if slow then
    if penalty = 0 then 1 else min (penalty * 2) u32max
  else
    penalty - 2

/-- Penalty after `n` consecutive re-polls each observing
`score - previous_score < 1.0`, starting from the penalty `0` assigned by the
initial (non-re-poll) insertion. -/
def slowPenaltyIter : Nat → Nat
  | 0 => 0
  | n + 1 => penaltyStep (slowPenaltyIter n) true

/-! ## Model layer (`src/tweet/model.rs` and `crates/tweet-model/src/lib.rs`)

Only the fields inspected by the verified operations are carried; payload
fields never read by them (`text`, `entities`, URL fields, dimensions, …) are
elided. -/

/-- `enum TweetReferenceType`. -/
inductive TweetReferenceType where
  | retweeted
  | quoted
  | repliedTo
deriving DecidableEq, Repr

/-- `struct ReferencedTweet { type, id }`. -/
structure ReferencedTweet where
  ty : TweetReferenceType
  id : String
deriving DecidableEq, Repr

/-- `struct TweetPublicMetrics`. -/
structure TweetPublicMetrics where
  reply_count : Nat := 0
  retweet_count : Nat := 0
  quote_count : Nat := 0
  like_count : Nat := 0
deriving DecidableEq, Repr

/-- `struct Tweet` (claim-relevant fields). -/
structure Tweet where
  id : String
  created_at : Option Int := Option.none
  author_id : Option String := Option.none
  media_keys : List String := []
  public_metrics : Option TweetPublicMetrics := Option.none
  referenced_tweets : List ReferencedTweet := []
deriving DecidableEq, Repr

/-- `Tweet::get_retweet_source`: the id of the first reference whose type is
`Retweeted`. -/
def Tweet.get_retweet_source (t : Tweet) : Option String :=
  (t.referenced_tweets.find? fun r => r.ty = TweetReferenceType.retweeted).map (·.id)

/-- `struct UserPublicMetrics`. -/
structure UserPublicMetrics where
  followers_count : Nat := 0
  following_count : Nat := 0
  tweet_count : Nat := 0
  listed_count : Nat := 0
deriving DecidableEq, Repr

/-- `struct User` (claim-relevant fields). -/
structure User where
  id : String
  public_metrics : Option UserPublicMetrics := Option.none
deriving DecidableEq, Repr

/-- `struct Media` (claim-relevant fields: the cache key). -/
structure Media where
  media_key : String
deriving DecidableEq, Repr

/-- `struct ResponseIncludes { tweets, users, media }`. -/
structure ResponseIncludes where
  tweets : List Tweet := []
  users : List User := []
  media : List Media := []
deriving DecidableEq, Repr

/-- `ResponseIncludes::get_media`: linear `find` by media key. -/
def ResponseIncludes.get_media (inc : ResponseIncludes) (key : String) : Option Media :=
  inc.media.find? fun m => m.media_key = key

/-- `ResponseIncludes::get_tweet`: linear `find` by tweet id. -/
def ResponseIncludes.get_tweet (inc : ResponseIncludes) (id : String) : Option Tweet :=
  inc.tweets.find? fun t => t.id = id

/-- `ResponseIncludes::get_user`: linear `find` by user id. -/
def ResponseIncludes.get_user (inc : ResponseIncludes) (id : String) : Option User :=
  inc.users.find? fun u => u.id = id

/-- `ResponseIncludes::augment`: appends (`Vec::extend`) the other side's
entries onto each of the three lists. -/
def ResponseIncludes.augment (inc other : ResponseIncludes) : ResponseIncludes :=
  { tweets := inc.tweets ++ other.tweets
    users := inc.users ++ other.users
    media := inc.media ++ other.media }

/-! ## Augmenter (`src/tweet/util.rs`) -/

/-- The "real tweet" resolution at the top of `needs_augment`: the retweet
source looked up through the includes when the tweet is a retweet, the tweet
itself otherwise.  The Rust code `unwrap`s the lookup; `Option.none` here
models that panic. -/
def realTweet (inc : ResponseIncludes) (t : Tweet) : Option Tweet :=
  match t.get_retweet_source with
  | some rt_id => inc.get_tweet rt_id
  | Option.none => some t

/-- `needs_augment` from `src/tweet/util.rs`: `some result` when the real-tweet
lookup succeeds (`result = some id` when some media key of the real tweet is
not resolvable from the includes, `result = none` when all are), and
`Option.none` when the lookup would panic.  The Rust code compares the number
of media keys with the number of keys whose `get_media` lookup succeeded. -/
def needs_augment (inc : ResponseIncludes) (t : Tweet) : Option (Option String) :=
  (realTweet inc t).map fun real =>
    let media_found := real.media_keys.filterMap fun k => inc.get_media k
    if real.media_keys.length = media_found.length then Option.none else some real.id

/-- The missing-id collection loop of `load_batch_augment_data`: the ids
produced by `needs_augment` over the batch, in order. -/
def collectAugmentIds (inc : ResponseIncludes) (tweets : List Tweet) : List String :=
  tweets.filterMap fun t => (needs_augment inc t).bind id

/-- `load_batch_augment_data`, observed at the level of the ids it would
retrieve: `Option.none` models the `if ids.is_empty() { return Ok(None) }`
early exit (no request issued, empty result), `some ids` the
`retrieve_many(ids)` call. -/
def load_batch_augment_ids (inc : ResponseIncludes) (tweets : List Tweet) :
    Option (List String) :=
  let ids := collectAugmentIds inc tweets
  if ids.isEmpty then Option.none else some ids

/-- Decidable form of the side condition of the augment-idempotence claim:
for every tweet of the batch whose real tweet was reported missing by
`needs_augment`, the retrieval (`aug`) folded into the original includes
resolves every media key of that real tweet. -/
def supplyOK (inc aug : ResponseIncludes) (tweets : List Tweet) : Bool :=
  tweets.all fun t =>
    (realTweet inc t).all fun real =>
      !(needs_augment inc t == some (some real.id)) ||
        real.media_keys.all fun k => ((inc.augment aug).get_media k).isSome

/-! ## List engine (`crates/tweet-fetch/src/list.rs`) -/

/-- Rust `String` order on tweet IDs (byte-lexicographic; on valid UTF-8 the
same as code-point-lexicographic, embedded on the character list -- the very
relation behind Lean's `<` on `String`, in kernel-computable form). -/
def idLt (a b : String) : Bool := decide (a.data < b.data)

/-- One page of the `lists/{id}/tweets` endpoint as consumed by
`load_list_since`: the tweet IDs of `data` in server order (newest first), and
the `ListMeta` fields the loop reads (`result_count : i32`, `next_token`). -/
structure ListPage where
  data : List String
  result_count : Int
  next_token : Option String
deriving DecidableEq, Repr

/-- The `since_id` filter applied to a page inside the pagination loop:
`data.into_iter().take_while(|item| item.id() > since_id)`. -/
def pageKept (since_id : String) (p : ListPage) : List String :=
  p.data.takeWhile fun id => idLt since_id id

/-- The continuation condition of the pagination loop of `load_list_since`:
the loop requests another page exactly when the filtered batch length equals
the server-reported `result_count` (`data_len as i32 != result_count` breaks)
and the page carries a `next_token` (the `while let Some(token)` re-entry). -/
def listContinue (since_id : String) (p : ListPage) : Bool :=
  (((pageKept since_id p).length : Int) == p.result_count) && p.next_token.isSome

/-- The pagination loop of `load_list_since` over the successive server
responses, accumulating the filtered data in arrival order (newest first;
the caller reverses).  An empty supply while the loop would continue simply
ends the trace. -/
def loadPagesLoop (since_id : String) : List ListPage → List String
  | [] => []
  | p :: ps =>
      pageKept since_id p ++
        (if listContinue since_id p then loadPagesLoop since_id ps else [])

/-- `struct ListHead { id, head }`. -/
structure ListHead where
  id : String
  head : Option String
deriving DecidableEq, Repr

/-- `load_list_since`: with an uninitialized head, a single request for one
newest tweet (the first server page), reversed; with `head = some since_id`,
the pagination loop, reversed to chronological (oldest-first) order.
`max_results` does not appear in the data path. -/
def load_list_since (lh : ListHead) (pages : List ListPage) : List String :=
  match lh.head with
  | Option.none => (match pages with | [] => [] | p :: _ => p.data).reverse
  | some since_id => (loadPagesLoop since_id pages).reverse

/-- `ListHead::load_and_update`: runs `load_list_since` and, when the returned
batch is non-empty, replaces `head` with the ID of its last element
(`res.data.last()`); otherwise the cursor is left as is.  Returns the updated
cursor and the emitted batch.  (The augment step of the Rust function only
touches `res.includes`, never `data` or the cursor.) -/
def ListHead.load_and_update (lh : ListHead) (pages : List ListPage) :
    ListHead × List String :=
  match (load_list_since lh pages).getLast? with
  | some last => ({ lh with head := some last }, load_list_since lh pages)
  | Option.none => (lh, load_list_since lh pages)

/-- A sequence of List-engine ticks on one subject: each tick feeds the server
responses of that tick to `load_and_update` and keeps the updated cursor. -/
def listTicks (lh : ListHead) : List (List ListPage) → ListHead
  | [] => lh
  | f :: fs => listTicks (lh.load_and_update f).1 fs

/-- Order on cursor heads: an uninitialized head precedes everything; an
initialized head may only move (weakly) up in tweet-ID order and never back to
uninitialized. -/
def headLe : Option String → Option String → Prop
  | Option.none, _ => True
  | some _, Option.none => False
  | some a, some b => a ≤ b

/-- The continuation condition the specification sentence describes
(refinement counterpart of `listContinue`, for comparison): the
server-reported `result_count` equals the requested `max_results` and a
`next_token` is present. -/
def specListContinue (max_results : Int) (p : ListPage) : Bool :=
  (p.result_count == max_results) && p.next_token.isSome

/-! ## Webhook dispatcher (`crates/tweet-discord/src/lib.rs`) -/

/-- One HTTP response observed by the retry loop of `execute_webhook`: the
status code plus the two rate-limit headers, already parsed the way the Rust
code parses them (`x-ratelimit-reset-after` as a float number of seconds --
represented exactly as a rational -- and `retry-after` as an integer number of
seconds). -/
structure WebhookResponse where
  status : Nat
  reset_after : Option ℚ := Option.none
  retry_after : Option Nat := Option.none
deriving DecidableEq, Repr

/-- The sleep duration (seconds) chosen on a 429 response:
`x-ratelimit-reset-after` when present, else `retry-after`, else 5. -/
def webhookRetryDelay (r : WebhookResponse) : ℚ :=
  match r.reset_after with
  | some reset => reset
  | Option.none =>
      match r.retry_after with
      | some retry => (retry : ℚ)
      | Option.none => 5

/-- The `loop` of `execute_webhook` over the successive responses of one
delivery: every 429 sleeps `webhookRetryDelay` and retries; the first non-429
response ends the loop -- `resp.error_for_status()?` turns statuses 400..=599
into `Except.error` and anything else into `Except.ok ()`.  The result pairs
the sleeps performed with the outcome; `Option.none` means the supply of
responses ended while the loop was still retrying (the loop has no attempt
cap). -/
def execute_webhook_run : List WebhookResponse → Option (List ℚ × Except Nat Unit)
  | [] => Option.none
  | r :: rest =>
      if r.status = 429 then
        (execute_webhook_run rest).map fun out => (webhookRetryDelay r :: out.1, out.2)
      else if 400 ≤ r.status ∧ r.status ≤ 599 then
        some ([], Except.error r.status)
      else
        some ([], Except.ok ())

/-! ## Filtered-stream line consumer (`crates/tweet-fetch/src/stream.rs`) -/

/-- Rust `str::trim` (drop Unicode whitespace from both ends), embedded on the
character list so it stays kernel-computable. -/
def trimChars (l : List Char) : List Char :=
  ((l.dropWhile Char.isWhitespace).reverse.dropWhile Char.isWhitespace).reverse

/-- `str::trim` lifted back to `String`. -/
def lineTrim (s : String) : String := ⟨trimChars s.data⟩

/-- The per-line processing of the inner loop of `make_stream`, over the
complete newline-terminated lines assembled from the chunk buffer: each line
is trimmed; empty lines are skipped; `parse` abstracts
`serde_json::from_str::<TwitterResponse<_, _>>` (plus the downstream
augmentation of a successfully decoded bundle), with `Option.none` as the
`Err` branch, which only logs and falls through to the next line.  The result
is the list of yielded bundles in order. -/
def processStreamLines {β : Type} (parse : String → Option β) (lines : List String) :
    List β :=
  lines.filterMap fun l =>
    let s := lineTrim l
    if s.data.isEmpty then Option.none else parse s

/-! ## Bulk retrieval (`crates/tweet-fetch/src/lib.rs`, `TwitterClient::retrieve`) -/

/-- `slice::chunks` with chunk size `n + 1`: successive runs of at most
`n + 1` elements covering the input in order. -/
def chunksSucc {α : Type} (n : Nat) : List α → List (List α)
  | [] => []
  | x :: xs => (x :: xs.take n) :: chunksSucc n (xs.drop n)
termination_by l => l.length
decreasing_by
  simp only [List.length_drop, List.length_cons]
  omega

/-- A provider response bundle as merged by `retrieve`: the tweet list plus
includes (other `ResponseItem` fields are not touched by the merge fold). -/
structure TweetBundle where
  data : List Tweet := []
  includes : ResponseIncludes := {}
deriving DecidableEq, Repr

/-- The requests `retrieve` issues, in issue order: the singular
`/2/tweets/:id` endpoint or the bulk `/2/tweets?ids=...` endpoint. -/
inductive TweetRequest where
  | single (id : String)
  | bulk (ids : List String)
deriving DecidableEq, Repr

/-- `TwitterClient::retrieve`, parameterized by the provider: `single` answers
the singular endpoint (a one-tweet envelope), `bulk` answers the bulk endpoint
for one chunk of ids.  Returns the requests issued (in order; the Rust code
drives them as a `FuturesOrdered`, so responses are folded in chunk order) and
the merged bundle: `[]` short-circuits to the empty default bundle with no
request; `[id]` wraps the singular response's tweet in a one-element `data`;
longer inputs are chunked 100 apiece and folded from the default bundle by
`data.extend` / `includes.augment`. -/
def retrieve (single : String → Tweet × ResponseIncludes)
    (bulk : List String → TweetBundle) :
    List String → List TweetRequest × TweetBundle
  | [] => ([], {})
  | [id] =>
      ([TweetRequest.single id],
        { data := [(single id).1], includes := (single id).2 })
  | ids =>
      let cs := chunksSucc 99 ids
      (cs.map TweetRequest.bulk,
        cs.foldl
          (fun base c =>
            { data := base.data ++ (bulk c).data
              includes := base.includes.augment (bulk c).includes })
          {})

/-! ## Helper lemmas -/

/-- `idLt` decides exactly Lean's lexicographic `<` on `String` (which is
defined as lexicographic order on the character list). -/
theorem idLt_iff (a b : String) : idLt a b = true ↔ a < b := by
  unfold idLt
  rw [decide_eq_true_iff]
  exact String.lt_iff_toList_lt.symm

/-- Every ID accumulated by the pagination loop passed the `since_id` filter,
hence is strictly greater than the cursor head. -/
theorem mem_loadPagesLoop {since : String} :
    ∀ {pages : List ListPage} {x : String}, x ∈ loadPagesLoop since pages → since < x := by
  intro pages
  induction pages with
  | nil =>
    intro x hx
    simp [loadPagesLoop] at hx
  | cons p ps ih =>
    intro x hx
    simp only [loadPagesLoop] at hx
    rcases List.mem_append.mp hx with h | h
    · exact (idLt_iff _ _).mp (List.mem_takeWhile_imp h)
    · by_cases hc : listContinue since p
      · rw [if_pos hc] at h
        exact ih h
      · rw [if_neg hc] at h
        simp at h

/-- A successful `get_tweet` lookup survives `augment` (the augmenting entries
are appended after the existing ones, and `find` returns the first match). -/
theorem get_tweet_augment {inc : ResponseIncludes} {i : String} {tw : Tweet}
    (aug : ResponseIncludes) (h : inc.get_tweet i = some tw) :
    (inc.augment aug).get_tweet i = some tw := by
  unfold ResponseIncludes.get_tweet ResponseIncludes.augment at *
  rw [List.find?_append, h]
  rfl

/-- A resolvable media key stays resolvable after `augment`. -/
theorem get_media_augment {inc : ResponseIncludes} {k : String}
    (aug : ResponseIncludes) (h : (inc.get_media k).isSome = true) :
    ((inc.augment aug).get_media k).isSome = true := by
  unfold ResponseIncludes.get_media ResponseIncludes.augment at *
  rw [List.find?_append]
  rcases Option.isSome_iff_exists.mp h with ⟨m, hm⟩
  rw [hm]
  rfl

/-- The real-tweet resolution is stable under `augment`. -/
theorem realTweet_augment {inc : ResponseIncludes} {t real : Tweet}
    (aug : ResponseIncludes) (h : realTweet inc t = some real) :
    realTweet (inc.augment aug) t = some real := by
  unfold realTweet at *
  cases hrt : t.get_retweet_source with
  | none =>
    rw [hrt] at h
    exact h
  | some rt_id =>
    rw [hrt] at h
    exact get_tweet_augment aug h

/-- A `filterMap` keeps the full length exactly when it succeeds everywhere. -/
theorem length_filterMap_eq_iff {α β : Type} (f : α → Option β) (l : List α) :
    l.length = (l.filterMap f).length ↔ ∀ a ∈ l, (f a).isSome = true := by
  induction l with
  | nil => simp
  | cons a l ih =>
    cases hfa : f a with
    | none =>
      simp only [List.filterMap_cons, hfa, List.length_cons]
      constructor
      · intro h
        have hle := List.length_filterMap_le f l
        omega
      · intro h
        have := h a (List.mem_cons_self a l)
        rw [hfa] at this
        simp at this
    | some b =>
      simp only [List.filterMap_cons, hfa, List.length_cons, Nat.add_right_cancel_iff]
      rw [ih]
      constructor
      · intro h x hx
        rcases List.mem_cons.mp hx with rfl | hx
        · rw [hfa]; rfl
        · exact h x hx
      · intro h x hx
        exact h x (List.mem_cons_of_mem a hx)

/-- Closed form of the doubling chain: after `n ≥ 1` slow re-polls from
penalty `0`, the penalty is `2 ^ (n - 1)` saturated at `u32::MAX`. -/
theorem slowPenaltyIter_eq : ∀ n : Nat, 1 ≤ n →
    slowPenaltyIter n = min (2 ^ (n - 1)) u32max := by
  intro n hn
  induction n with
  | zero => omega
  | succ m ih =>
    rcases Nat.eq_or_lt_of_le hn with h1 | h1
    · rw [← h1]
      decide
    · have hm : 1 ≤ m := by omega
      have hiter := ih hm
      have hpow1 : 1 ≤ 2 ^ (m - 1) := Nat.one_le_two_pow
      have humax : 1 ≤ u32max := by decide
      have hne : min (2 ^ (m - 1)) u32max ≠ 0 := by
        have := Nat.le_min.mpr ⟨hpow1, humax⟩
        omega
      have hsucc : 2 ^ (m - 1) * 2 = 2 ^ m := by
        rw [← Nat.pow_succ]
        congr 1
        omega
      show penaltyStep (slowPenaltyIter m) true = min (2 ^ (m + 1 - 1)) u32max
      rw [hiter]
      unfold penaltyStep
      rw [if_pos rfl, if_neg hne]
      simp only [Nat.add_sub_cancel]
      rcases Nat.le_total (2 ^ (m - 1)) u32max with hle | hle
      · rw [Nat.min_eq_left hle, hsucc]
      · rw [Nat.min_eq_right hle]
        rw [Nat.min_eq_right (Nat.le_mul_of_pos_right u32max (by omega))]
        have h2m : u32max ≤ 2 ^ m := le_trans hle (by
          rw [← hsucc]
          exact Nat.le_mul_of_pos_right _ (by omega))
        rw [Nat.min_eq_right h2m]

/-- `headLe` is reflexive. -/
theorem headLe_refl (a : Option String) : headLe a a := by
  cases a with
  | none => trivial
  | some x => exact le_refl x

/-- `headLe` is transitive. -/
theorem headLe_trans {a b c : Option String} (h1 : headLe a b) (h2 : headLe b c) :
    headLe a c := by
  cases a with
  | none => trivial
  | some x =>
    cases b with
    | none => exact absurd h1 (by simp [headLe])
    | some y =>
      cases c with
      | none => exact absurd h2 (by simp [headLe])
      | some z => exact le_trans h1 h2

/-- Characterization of one `load_and_update` call on an initialized cursor:
the batch consists of IDs strictly above the head; a non-empty batch moves the
head up to the batch's last (chronologically newest) element, an empty batch
leaves the cursor untouched. -/
theorem load_and_update_since {lh : ListHead} {h₀ : String}
    (pages : List ListPage) (hh : lh.head = some h₀) :
    (∀ x ∈ (lh.load_and_update pages).2, h₀ < x) ∧
    ((lh.load_and_update pages).2 ≠ [] →
      ∃ last, ((lh.load_and_update pages).2).getLast? = some last ∧
        (lh.load_and_update pages).1.head = some last ∧ h₀ < last) ∧
    ((lh.load_and_update pages).2 = [] → lh.load_and_update pages = (lh, [])) := by
  have hmem : ∀ x ∈ load_list_since lh pages, h₀ < x := by
    intro x hx
    unfold load_list_since at hx
    rw [hh] at hx
    exact mem_loadPagesLoop (List.mem_reverse.mp hx)
  cases hlast : (load_list_since lh pages).getLast? with
  | none =>
    have hnil : load_list_since lh pages = [] := by
      cases hcase : load_list_since lh pages with
      | nil => rfl
      | cons a as =>
        rw [hcase] at hlast
        simp [List.getLast?_concat, List.getLast?] at hlast
    have heq : lh.load_and_update pages = (lh, load_list_since lh pages) := by
      unfold ListHead.load_and_update
      rw [hlast]
    rw [heq]
    refine ⟨hmem, ?_, ?_⟩
    · intro hne
      exact absurd hnil hne
    · intro _
      rw [hnil]
  | some last =>
    have hlmem : last ∈ load_list_since lh pages := List.mem_of_mem_getLast? hlast
    have heq : lh.load_and_update pages =
        ({ lh with head := some last }, load_list_since lh pages) := by
      unfold ListHead.load_and_update
      rw [hlast]
    rw [heq]
    refine ⟨hmem, ?_, ?_⟩
    · intro _
      exact ⟨last, hlast, rfl, hmem last hlmem⟩
    · intro hempty
      have hnil : load_list_since lh pages = [] := hempty
      rw [hnil] at hlmem
      exact absurd hlmem (List.not_mem_nil last)

/-- One tick never moves the head down (and never un-initializes it). -/
theorem load_and_update_headLe (lh : ListHead) (pages : List ListPage) :
    headLe lh.head (lh.load_and_update pages).1.head := by
  cases hh : lh.head with
  | none =>
    unfold ListHead.load_and_update
    cases (load_list_since lh pages).getLast? with
    | none => rw [hh]; trivial
    | some last => trivial
  | some h₀ =>
    rcases load_and_update_since pages hh with ⟨-, hne, hnil⟩
    cases hcase : (lh.load_and_update pages).2 with
    | nil =>
      rw [hnil hcase, hh]
      exact le_refl h₀
    | cons a as =>
      rcases hne (by rw [hcase]; exact List.cons_ne_nil a as) with ⟨last, -, hhead, hlt⟩
      rw [hhead]
      exact le_of_lt hlt

/-- Head monotonicity extends over any tick sequence. -/
theorem listTicks_headLe : ∀ (fs : List (List ListPage)) (lh : ListHead),
    headLe lh.head (listTicks lh fs).head := by
  intro fs
  induction fs with
  | nil =>
    intro lh
    exact headLe_refl lh.head
  | cons f fs ih =>
    intro lh
    exact headLe_trans (load_and_update_headLe lh f) (ih (lh.load_and_update f).1)

/-- `chunksSucc n` partitions the input: concatenating the chunks restores the
original list. -/
theorem chunksSucc_flatten {α : Type} (n : Nat) (l : List α) :
    (chunksSucc n l).flatten = l := by
  induction l using chunksSucc.induct n with
  | case1 => simp [chunksSucc]
  | case2 x xs ih =>
    rw [chunksSucc]
    simp only [List.flatten_cons, ih]
    simp [List.take_append_drop]

/-- Every chunk produced by `chunksSucc n` is non-empty and holds at most
`n + 1` elements. -/
theorem chunksSucc_length {α : Type} (n : Nat) (l : List α) :
    ∀ c ∈ chunksSucc n l, 1 ≤ c.length ∧ c.length ≤ n + 1 := by
  induction l using chunksSucc.induct n with
  | case1 =>
    intro c hc
    simp [chunksSucc] at hc
  | case2 x xs ih =>
    intro c hc
    rw [chunksSucc] at hc
    rcases List.mem_cons.mp hc with rfl | hc
    · constructor
      · simp
      · simp only [List.length_cons]
        have := List.length_take_le n xs
        omega
    · exact ih c hc

/-- The merge fold of `retrieve` splits by field: `data` is the concatenation
of the chunk responses in order, `includes` the left fold of `augment`. -/
theorem retrieve_foldl (bulk : List String → TweetBundle) :
    ∀ (cs : List (List String)) (base : TweetBundle),
      cs.foldl
          (fun b c =>
            { data := b.data ++ (bulk c).data
              includes := b.includes.augment (bulk c).includes })
          base =
        { data := base.data ++ (cs.map fun c => (bulk c).data).flatten
          includes := cs.foldl (fun acc c => acc.augment (bulk c).includes) base.includes } := by
  intro cs
  induction cs with
  | nil =>
    intro base
    simp
  | cons c cs ih =>
    intro base
    simp only [List.foldl_cons, List.map_cons, List.flatten_cons, ih]
    simp [List.append_assoc]

/-! ## Claim theorems -/

/-- Claim C1, corrected.  For `Server(n)` with `n ≥ 1`, `sleep_msecs` returns
`min(2^(n-1), 60) × 1000` ms for every `n` except `n = 6`, and is always capped
at 60 s.  (At `n = 6` the code jumps straight to the 60 s cap instead of the
32 s the claimed formula gives; see `C1_counterexample`.) -/
theorem C1_server_delay (n : Nat) (h1 : 1 ≤ n) :
    (n ≠ 6 → BackoffState.sleep_msecs (.server n) = min (2 ^ (n - 1)) 60 * 1000) ∧
    BackoffState.sleep_msecs (.server n) ≤ 60000 := by
  constructor
  · intro h6
    by_cases h : n < 6
    · interval_cases n <;> decide
    · have h60 : 60 ≤ 2 ^ (n - 1) := by
        calc 60 ≤ 2 ^ 6 := by decide
          _ ≤ 2 ^ (n - 1) := Nat.pow_le_pow_right (by decide) (by omega)
      show (if n < 6 then 2 ^ (n - 1) else 60) * 1000 = min (2 ^ (n - 1)) 60 * 1000
      rw [if_neg h, Nat.min_eq_right h60]
  · by_cases h : n < 6
    · interval_cases n <;> decide
    · show (if n < 6 then 2 ^ (n - 1) else 60) * 1000 ≤ 60000
      rw [if_neg h]

/-- Counterexample to claim C1 as stated: at attempt count 6 the Server class
sleeps 60000 ms, while `min(2^(6-1), 60) × 1000` is 32000 ms. -/
theorem C1_counterexample :
    BackoffState.sleep_msecs (.server 6) = 60000 ∧
    min (2 ^ (6 - 1)) 60 * 1000 = 32000 ∧ (60000 : Nat) ≠ 32000 := by
  decide

/-- Witness for C1 at `n = 3`: the hypotheses are satisfiable and the delay is
`min(4, 60) × 1000 = 4000` ms. -/
theorem C1_witness :
    1 ≤ 3 ∧
    ((3 ≠ 6 → BackoffState.sleep_msecs (.server 3) = min (2 ^ (3 - 1)) 60 * 1000) ∧
      BackoffState.sleep_msecs (.server 3) ≤ 60000) :=
  ⟨by decide, C1_server_delay 3 (by decide)⟩

/-- Claim C2, corrected.  The pagination loop of `load_list_since` requests
the next page exactly when the number of returned tweets that survive the
`since_id` filter equals the server-reported `result_count` and a `next_token`
is present — the comparison is against the filtered batch length, not against
the requested `max_results` (see `C2_counterexample`).  The second conjunct is
the loop unfolding: the filtered page data is accumulated and the loop either
continues with the next page or stops. -/
theorem C2_pagination_condition (since : String) (p : ListPage) (ps : List ListPage) :
    (listContinue since p = true ↔
      ((pageKept since p).length : Int) = p.result_count ∧ p.next_token.isSome = true) ∧
    loadPagesLoop since (p :: ps) =
      pageKept since p ++ (if listContinue since p then loadPagesLoop since ps else []) ∧
    (listContinue since p = false → loadPagesLoop since (p :: ps) = pageKept since p) := by
  refine ⟨?_, rfl, ?_⟩
  · unfold listContinue
    rw [Bool.and_eq_true, beq_iff_eq]
  · intro hstop
    show pageKept since p ++ (if listContinue since p then loadPagesLoop since ps else []) =
      pageKept since p
    rw [hstop]
    simp

/-- Counterexample to claim C2 as stated: with cursor head `"100"` and
requested `max_results = 5`, a page answering two tweets (`result_count = 2`,
both above the head) together with a `next_token` makes the code request the
next page, while the claimed condition `result_count = max_results` is false
and would stop. -/
theorem C2_counterexample :
    listContinue "100" ⟨["300", "200"], 2, some "t"⟩ = true ∧
    specListContinue 5 ⟨["300", "200"], 2, some "t"⟩ = false := by
  constructor
  · rfl
  · rfl

/-- Witness for C2 at a concrete page: the continuation condition evaluates as
characterized. -/
theorem C2_witness :
    (listContinue "100" ⟨["300", "200"], 2, Option.none⟩ = true ↔
      ((pageKept "100" ⟨["300", "200"], 2, Option.none⟩).length : Int) = 2 ∧
        (Option.none : Option String).isSome = true) ∧
    loadPagesLoop "100" [⟨["300", "200"], 2, Option.none⟩, ⟨["150"], 1, Option.none⟩] =
      pageKept "100" ⟨["300", "200"], 2, Option.none⟩ ++
        (if listContinue "100" ⟨["300", "200"], 2, Option.none⟩ then
          loadPagesLoop "100" [⟨["150"], 1, Option.none⟩] else []) ∧
    (listContinue "100" ⟨["300", "200"], 2, Option.none⟩ = false →
      loadPagesLoop "100" [⟨["300", "200"], 2, Option.none⟩, ⟨["150"], 1, Option.none⟩] =
        pageKept "100" ⟨["300", "200"], 2, Option.none⟩) :=
  C2_pagination_condition "100" ⟨["300", "200"], 2, Option.none⟩ [⟨["150"], 1, Option.none⟩]

/-- Claim C3, confirmed.  Starting from penalty 0, `N ≥ 1` consecutive
re-polls that each observe a score increase below 1.0 leave the penalty at
`min(2^(N-1), u32::MAX)`; a re-poll observing an increase of at least 1.0
subtracts exactly 2, saturating at 0. -/
theorem C3_penalty_growth (N : Nat) (hN : 1 ≤ N) (p : Nat) :
    slowPenaltyIter N = min (2 ^ (N - 1)) u32max ∧
    penaltyStep p false = p - 2 ∧
    (p ≤ 2 → penaltyStep p false = 0) := by
  refine ⟨slowPenaltyIter_eq N hN, rfl, ?_⟩
  intro hp
  show p - 2 = 0
  omega

/-- Witness for C3 at `N = 3`, `p = 5`: three slow re-polls give penalty 4,
and a fast re-poll from 5 gives 3. -/
theorem C3_witness :
    1 ≤ 3 ∧
    (slowPenaltyIter 3 = min (2 ^ (3 - 1)) u32max ∧
      penaltyStep 5 false = 5 - 2 ∧
      (5 ≤ 2 → penaltyStep 5 false = 0)) :=
  ⟨by decide, C3_penalty_growth 3 (by decide) 5⟩

/-- Claim C4, corrected.  When `op` fails with a class different from the
current backoff state (including the very first failure of a fresh run), the
counter resets to `class(1)` — so no delay accumulates across classes — but
the next invocation of `op` is *not* immediate: it is preceded by exactly the
class's first-attempt sleep (250 ms network, 1000 ms server, 60000 ms
ratelimit), which is nonzero (see `C4_counterexample`). -/
theorem C4_new_class_retry (st : BackoffState) (e : BackoffType)
    (rest : List BackoffType) (h : st.sameClass e = false) :
    st.record e = e.initState ∧
    runSleepTrace st (e :: rest) =
      (if st.should_backoff then [st.sleep_msecs] else []) ++
        runSleepTrace e.initState rest ∧
    (runSleepTrace e.initState rest).head? = some e.initState.sleep_msecs ∧
    e.initState.sleep_msecs =
      (match e with
        | .network => 250
        | .server => 1000
        | .ratelimit => 60000) ∧
    e.initState.sleep_msecs ≠ 0 := by
  have hrec : st.record e = e.initState := by
    cases st <;> cases e <;>
      first
        | rfl
        | simp [BackoffState.sameClass] at h
  refine ⟨hrec, ?_, ?_, ?_, ?_⟩
  · show (if st.should_backoff then [st.sleep_msecs] else []) ++
        runSleepTrace (st.record e) rest =
      (if st.should_backoff then [st.sleep_msecs] else []) ++
        runSleepTrace e.initState rest
    rw [hrec]
  · cases rest with
    | nil => cases e <;> rfl
    | cons f fs => cases e <;> rfl
  · cases e <;> rfl
  · cases e <;> decide

/-- Counterexample to claim C4 as stated: from a fresh start, a single Network
failure is followed by a 250 ms sleep before the retry — the sleep trace of
the run is `[250]`, not the empty trace an immediate retry would produce. -/
theorem C4_counterexample :
    runSleepTrace BackoffState.none [BackoffType.network] = [250] ∧
    [250] ≠ ([] : List Nat) := by
  constructor
  · rfl
  · simp

/-- Witness for C4: fresh state, first Network failure. -/
theorem C4_witness :
    BackoffState.none.record BackoffType.network = BackoffType.network.initState ∧
    runSleepTrace BackoffState.none [BackoffType.network] =
      (if BackoffState.none.should_backoff then [BackoffState.none.sleep_msecs] else []) ++
        runSleepTrace BackoffType.network.initState [] ∧
    (runSleepTrace BackoffType.network.initState []).head? =
      some BackoffType.network.initState.sleep_msecs ∧
    BackoffType.network.initState.sleep_msecs =
      (match BackoffType.network with
        | .network => 250
        | .server => 1000
        | .ratelimit => 60000) ∧
    BackoffType.network.initState.sleep_msecs ≠ 0 :=
  C4_new_class_retry BackoffState.none BackoffType.network [] (by decide)

/-- Claim C5, confirmed.  On an initialized cursor, a tick whose fetch emits
at least one tweet (every emitted ID is strictly above the current head, by
the `since_id` filter) moves the head to the last — chronologically newest —
emitted ID, which is strictly greater than the previous head; a tick emitting
nothing leaves the cursor unchanged.  Consequently the head is nondecreasing
(in tweet-ID lexicographic order, never back to uninitialized) across any
sequence of ticks. -/
theorem C5_cursor_monotone (lh : ListHead) (pages : List ListPage)
    (fs : List (List ListPage)) (h₀ : String) (hh : lh.head = some h₀) :
    (∀ x ∈ (lh.load_and_update pages).2, h₀ < x) ∧
    ((lh.load_and_update pages).2 ≠ [] →
      ∃ last, ((lh.load_and_update pages).2).getLast? = some last ∧
        (lh.load_and_update pages).1.head = some last ∧ h₀ < last) ∧
    ((lh.load_and_update pages).2 = [] → lh.load_and_update pages = (lh, [])) ∧
    headLe lh.head (listTicks lh fs).head := by
  rcases load_and_update_since pages hh with ⟨h1, h2, h3⟩
  exact ⟨h1, h2, h3, listTicks_headLe fs lh⟩

/-- Witness for C5: head `"100"`, one page with two newer tweets, one
subsequent tick. -/
theorem C5_witness :
    ((⟨"L1", some "100"⟩ : ListHead).head = some "100") ∧
    ((∀ x ∈ ((⟨"L1", some "100"⟩ : ListHead).load_and_update
        [⟨["300", "200"], 2, Option.none⟩]).2, "100" < x) ∧
      (((⟨"L1", some "100"⟩ : ListHead).load_and_update
          [⟨["300", "200"], 2, Option.none⟩]).2 ≠ [] →
        ∃ last, (((⟨"L1", some "100"⟩ : ListHead).load_and_update
            [⟨["300", "200"], 2, Option.none⟩]).2).getLast? = some last ∧
          ((⟨"L1", some "100"⟩ : ListHead).load_and_update
            [⟨["300", "200"], 2, Option.none⟩]).1.head = some last ∧ "100" < last) ∧
      (((⟨"L1", some "100"⟩ : ListHead).load_and_update
          [⟨["300", "200"], 2, Option.none⟩]).2 = [] →
        (⟨"L1", some "100"⟩ : ListHead).load_and_update
          [⟨["300", "200"], 2, Option.none⟩] = (⟨"L1", some "100"⟩, [])) ∧
      headLe (⟨"L1", some "100"⟩ : ListHead).head
        (listTicks ⟨"L1", some "100"⟩ [[⟨["400"], 1, Option.none⟩]]).head) :=
  ⟨rfl, C5_cursor_monotone ⟨"L1", some "100"⟩ [⟨["300", "200"], 2, Option.none⟩]
    [[⟨["400"], 1, Option.none⟩]] "100" rfl⟩

/-- Claim C10, confirmed.  `load_and_update` never touches the `id` field of
the cursor; a fetch emitting no tweets leaves the whole cursor unchanged; and
an initialized head is never cleared back to uninitialized. -/
theorem C10_cursor_frame (lh : ListHead) (pages : List ListPage) :
    (lh.load_and_update pages).1.id = lh.id ∧
    ((lh.load_and_update pages).2 = [] → (lh.load_and_update pages).1 = lh) ∧
    (lh.head.isSome = true → (lh.load_and_update pages).1.head.isSome = true) := by
  unfold ListHead.load_and_update
  cases hlast : (load_list_since lh pages).getLast? with
  | none =>
    refine ⟨rfl, fun _ => rfl, fun hs => hs⟩
  | some last =>
    refine ⟨rfl, ?_, fun _ => rfl⟩
    intro hempty
    have hnil : load_list_since lh pages = [] := hempty
    rw [hnil] at hlast
    simp at hlast

/-- Witness for C10 on a concrete cursor and a page below the head (nothing
emitted, cursor untouched). -/
theorem C10_witness :
    ((⟨"L1", some "100"⟩ : ListHead).load_and_update
        [⟨["050"], 1, Option.none⟩]).1.id = "L1" ∧
    (((⟨"L1", some "100"⟩ : ListHead).load_and_update
        [⟨["050"], 1, Option.none⟩]).2 = [] →
      ((⟨"L1", some "100"⟩ : ListHead).load_and_update
        [⟨["050"], 1, Option.none⟩]).1 = ⟨"L1", some "100"⟩) ∧
    ((some "100" : Option String).isSome = true →
      ((⟨"L1", some "100"⟩ : ListHead).load_and_update
        [⟨["050"], 1, Option.none⟩]).1.head.isSome = true) :=
  C10_cursor_frame ⟨"L1", some "100"⟩ [⟨["050"], 1, Option.none⟩]

/-- Claim C6, confirmed.  If every tweet of the batch resolves its real tweet
(the Rust code `unwrap`s that lookup) and the first augmentation retrieval
(`aug`) supplies, once folded into the bundle by `augment`, every media key of
each real tweet that was reported missing, then re-running the augmenter on
the augmented bundle collects no IDs and returns the empty result — the
second run issues no request and leaves the bundle unchanged. -/
theorem C6_augment_idempotent (tweets : List Tweet) (inc aug : ResponseIncludes)
    (hreal : (tweets.all fun t => (realTweet inc t).isSome) = true)
    (hsupply : supplyOK inc aug tweets = true) :
    load_batch_augment_ids (inc.augment aug) tweets = Option.none := by
  have hcoll : collectAugmentIds (inc.augment aug) tweets = [] := by
    unfold collectAugmentIds
    rw [List.filterMap_eq_nil_iff]
    intro t ht
    have hrt : (realTweet inc t).isSome = true :=
      List.all_eq_true.mp hreal t ht
    rcases Option.isSome_iff_exists.mp hrt with ⟨real, hre⟩
    have hre2 : realTweet (inc.augment aug) t = some real := realTweet_augment aug hre
    have hall : ∀ k ∈ real.media_keys, ((inc.augment aug).get_media k).isSome = true := by
      by_cases hfound :
          real.media_keys.length =
            (real.media_keys.filterMap fun k => inc.get_media k).length
      · intro k hk
        exact get_media_augment aug
          ((length_filterMap_eq_iff (fun k => inc.get_media k) real.media_keys).mp
            hfound k hk)
      · have hneeds : needs_augment inc t = some (some real.id) := by
          unfold needs_augment
          rw [hre]
          simp only [Option.map_some']
          rw [if_neg hfound]
        have hsup := List.all_eq_true.mp hsupply t ht
        rw [hre] at hsup
        simp only [Option.all_some] at hsup
        rw [hneeds] at hsup
        simp only [beq_self_eq_true, Bool.not_true, Bool.false_or] at hsup
        intro k hk
        exact List.all_eq_true.mp hsup k hk
    have hlen : real.media_keys.length =
        (real.media_keys.filterMap fun k => (inc.augment aug).get_media k).length :=
      (length_filterMap_eq_iff (fun k => (inc.augment aug).get_media k)
        real.media_keys).mpr hall
    unfold needs_augment
    rw [hre2]
    simp only [Option.map_some']
    rw [if_pos hlen]
    rfl
  unfold load_batch_augment_ids
  rw [hcoll]
  rfl

/-- Witness for C6: a batch of one tweet with one unresolved media key; the
retrieval supplies that media; the second augmenter run collects nothing. -/
theorem C6_witness :
    (([⟨"t1", Option.none, Option.none, ["m1"], Option.none, []⟩] :
        List Tweet).all fun t =>
      (realTweet ({} : ResponseIncludes) t).isSome) = true ∧
    supplyOK ({} : ResponseIncludes) ⟨[], [], [⟨"m1"⟩]⟩
      [⟨"t1", Option.none, Option.none, ["m1"], Option.none, []⟩] = true ∧
    load_batch_augment_ids
      (ResponseIncludes.augment {} ⟨[], [], [⟨"m1"⟩]⟩)
      [⟨"t1", Option.none, Option.none, ["m1"], Option.none, []⟩] = Option.none :=
  ⟨by decide, by decide,
    C6_augment_idempotent _ {} ⟨[], [], [⟨"m1"⟩]⟩ (by decide) (by decide)⟩

/-- One-step unfolding of the delivery loop on a response. -/
theorem execute_webhook_run_cons (q : WebhookResponse) (qs : List WebhookResponse) :
    execute_webhook_run (q :: qs) =
      if q.status = 429 then
        (execute_webhook_run qs).map fun out => (webhookRetryDelay q :: out.1, out.2)
      else if 400 ≤ q.status ∧ q.status ≤ 599 then
        some ([], Except.error q.status)
      else
        some ([], Except.ok ()) := rfl

/-- Claim C7, corrected.  The delivery loop retries every 429 after sleeping
`x-ratelimit-reset-after` (float seconds) when present, else `retry-after`
(integer seconds) when present, else 5 s, with no bound on the number of
attempts (a supply consisting solely of 429s never terminates the loop).  The
first non-429 response ends the loop: statuses 400..=599 produce an error
without retrying, while *any* other status — 2xx, but also 1xx and 3xx, since
`error_for_status` only rejects 4xx/5xx — produces success (the claim's
"any other non-2xx status returns an error" fails on 1xx/3xx, see
`C7_counterexample`). -/
theorem C7_webhook_retry (rs : List WebhookResponse) :
    (execute_webhook_run rs = Option.none ↔ ∀ r ∈ rs, r.status = 429) ∧
    (∀ r rest, rs.dropWhile (fun x => x.status == 429) = r :: rest →
      execute_webhook_run rs =
        some ((rs.takeWhile fun x => x.status == 429).map webhookRetryDelay,
          if 400 ≤ r.status ∧ r.status ≤ 599 then Except.error r.status
          else Except.ok ())) := by
  induction rs with
  | nil =>
    constructor
    · simp [execute_webhook_run]
    · intro r rest h
      simp [List.dropWhile] at h
  | cons q qs ih =>
    by_cases hq : q.status = 429
    · constructor
      · rw [execute_webhook_run_cons, if_pos hq]
        constructor
        · intro hmap
          have hqs : execute_webhook_run qs = Option.none := by
            cases hcase : execute_webhook_run qs with
            | none => rfl
            | some v =>
              rw [hcase] at hmap
              simp at hmap
          intro r hr
          rcases List.mem_cons.mp hr with rfl | hr
          · exact hq
          · exact (ih.1.mp hqs) r hr
        · intro hall
          have hqs : execute_webhook_run qs = Option.none :=
            ih.1.mpr fun r hr => hall r (List.mem_cons_of_mem q hr)
          rw [hqs]
          rfl
      · intro r rest h
        have hdrop : (q :: qs).dropWhile (fun x => x.status == 429) =
            qs.dropWhile (fun x => x.status == 429) :=
          List.dropWhile_cons_of_pos (by rw [beq_iff_eq]; exact hq)
        have htake : (q :: qs).takeWhile (fun x => x.status == 429) =
            q :: qs.takeWhile (fun x => x.status == 429) :=
          List.takeWhile_cons_of_pos (by rw [beq_iff_eq]; exact hq)
        rw [hdrop] at h
        rw [htake, execute_webhook_run_cons, if_pos hq, ih.2 r rest h]
        rfl
    · constructor
      · rw [execute_webhook_run_cons, if_neg hq]
        constructor
        · intro hnone
          by_cases hrange : 400 ≤ q.status ∧ q.status ≤ 599
          · rw [if_pos hrange] at hnone
            simp at hnone
          · rw [if_neg hrange] at hnone
            simp at hnone
        · intro hall
          exact absurd (hall q (List.mem_cons_self q qs)) hq
      · intro r rest h
        have hdrop : (q :: qs).dropWhile (fun x => x.status == 429) = q :: qs :=
          List.dropWhile_cons_of_neg (by rw [beq_iff_eq]; exact hq)
        have htake : (q :: qs).takeWhile (fun x => x.status == 429) = [] :=
          List.takeWhile_cons_of_neg (by rw [beq_iff_eq]; exact hq)
        rw [hdrop] at h
        injection h with h1 h2
        rw [htake, execute_webhook_run_cons, if_neg hq, ← h1]
        by_cases hrange : 400 ≤ q.status ∧ q.status ≤ 599
        · rw [if_pos hrange, if_pos hrange]
          rfl
        · rw [if_neg hrange, if_neg hrange]
          rfl

/-- Counterexample to claim C7 as stated: a 304 response (non-2xx, non-429)
makes `execute_webhook` return success, not an error — `error_for_status`
only rejects statuses 400..=599. -/
theorem C7_counterexample :
    execute_webhook_run [⟨304, Option.none, Option.none⟩] =
      some ([], Except.ok ()) ∧
    ¬(200 ≤ 304 ∧ 304 ≤ 299) ∧ (304 : Nat) ≠ 429 := by
  refine ⟨rfl, ?_, ?_⟩
  · decide
  · decide

/-- Witness for C7, the spec's S5 scenario: one 429 carrying
`x-ratelimit-reset-after: 2.5`, then a 204; the dispatcher sleeps 2.5 s and
returns success. -/
theorem C7_witness :
    ((execute_webhook_run [⟨429, some (5 / 2 : ℚ), Option.none⟩,
        ⟨204, Option.none, Option.none⟩] = Option.none ↔
      ∀ r ∈ [(⟨429, some (5 / 2 : ℚ), Option.none⟩ : WebhookResponse),
          ⟨204, Option.none, Option.none⟩], r.status = 429) ∧
      (∀ r rest,
        ([(⟨429, some (5 / 2 : ℚ), Option.none⟩ : WebhookResponse),
            ⟨204, Option.none, Option.none⟩].dropWhile
          fun x => x.status == 429) = r :: rest →
        execute_webhook_run [⟨429, some (5 / 2 : ℚ), Option.none⟩,
            ⟨204, Option.none, Option.none⟩] =
          some (([(⟨429, some (5 / 2 : ℚ), Option.none⟩ : WebhookResponse),
              ⟨204, Option.none, Option.none⟩].takeWhile
            fun x => x.status == 429).map webhookRetryDelay,
            if 400 ≤ r.status ∧ r.status ≤ 599 then Except.error r.status
            else Except.ok ()))) ∧
    execute_webhook_run [⟨429, some (5 / 2 : ℚ), Option.none⟩,
        ⟨204, Option.none, Option.none⟩] =
      some ([(5 / 2 : ℚ)], Except.ok ()) :=
  ⟨C7_webhook_retry [⟨429, some (5 / 2 : ℚ), Option.none⟩,
      ⟨204, Option.none, Option.none⟩],
    rfl⟩

/-- Claim C8, confirmed.  A line that trims non-empty but fails to parse
contributes nothing to the yielded bundles and does not terminate the
consumer: the output over `pre ++ bad :: post` equals the outputs over `pre`
and `post` concatenated, and every later well-formed line is still decoded
and yielded. -/
theorem C8_parse_skip {β : Type} (parse : String → Option β)
    (pre post : List String) (bad : String)
    (hne : (lineTrim bad).data.isEmpty = false)
    (hbad : parse (lineTrim bad) = Option.none) :
    processStreamLines parse (pre ++ bad :: post) =
      processStreamLines parse pre ++ processStreamLines parse post ∧
    (∀ l ∈ post, ∀ b, (lineTrim l).data.isEmpty = false →
      parse (lineTrim l) = some b →
      b ∈ processStreamLines parse (pre ++ bad :: post)) := by
  have hskip : processStreamLines parse (pre ++ bad :: post) =
      processStreamLines parse pre ++ processStreamLines parse post := by
    unfold processStreamLines
    rw [List.filterMap_append, List.filterMap_cons]
    rw [show (if (lineTrim bad).data.isEmpty then Option.none
        else parse (lineTrim bad)) = Option.none by
      rw [hne, hbad]
      rfl]
  refine ⟨hskip, ?_⟩
  intro l hl b hlne hlparse
  rw [hskip]
  refine List.mem_append_right _ ?_
  unfold processStreamLines
  refine List.mem_filterMap.mpr ⟨l, hl, ?_⟩
  show (if (lineTrim l).data.isEmpty = true then Option.none else parse (lineTrim l)) = some b
  rw [hlne, hlparse]
  rfl

/-- Witness for C8: a malformed line between two well-formed ones is skipped
while both neighbours are yielded. -/
theorem C8_witness :
    (lineTrim "bad line").data.isEmpty = false ∧
    ((fun s => if s == "ok" then some 1 else Option.none) (lineTrim "bad line")
        = Option.none) ∧
    (processStreamLines (fun s => if s == "ok" then some 1 else Option.none)
        (["ok"] ++ "bad line" :: ["ok"]) =
      processStreamLines (fun s => if s == "ok" then some 1 else Option.none) ["ok"] ++
        processStreamLines (fun s => if s == "ok" then some 1 else Option.none) ["ok"] ∧
      (∀ l ∈ ["ok"], ∀ b : Nat,
        (lineTrim l).data.isEmpty = false →
        (fun s => if s == "ok" then some 1 else Option.none) (lineTrim l) = some b →
        b ∈ processStreamLines (fun s => if s == "ok" then some 1 else Option.none)
          (["ok"] ++ "bad line" :: ["ok"]))) :=
  ⟨rfl, rfl,
    C8_parse_skip (fun s => if s == "ok" then some 1 else Option.none)
      ["ok"] ["ok"] "bad line" rfl rfl⟩

/-- Claim C9, confirmed.  `retrieve` on the empty list returns the empty
bundle with no request issued; on a single ID it issues one singular-endpoint
request and wraps the returned tweet as a one-element `data`; on two or more
IDs it issues one bulk request per chunk of at most 100 IDs (the chunks are
non-empty and concatenate back to the input in order), and the merged bundle's
`data` is the concatenation of the chunk responses in chunk order while its
`includes` is the fold of `augment` over the chunk includes. -/
theorem C9_retrieve_batches (single : String → Tweet × ResponseIncludes)
    (bulk : List String → TweetBundle) (ids : List String) :
    (ids = [] → retrieve single bulk ids = ([], {})) ∧
    (∀ i, ids = [i] → retrieve single bulk ids =
      ([TweetRequest.single i],
        { data := [(single i).1], includes := (single i).2 })) ∧
    (2 ≤ ids.length →
      (retrieve single bulk ids).1 = (chunksSucc 99 ids).map TweetRequest.bulk ∧
      (chunksSucc 99 ids).flatten = ids ∧
      (∀ c ∈ chunksSucc 99 ids, 1 ≤ c.length ∧ c.length ≤ 100) ∧
      (retrieve single bulk ids).2 =
        { data := ((chunksSucc 99 ids).map fun c => (bulk c).data).flatten
          includes := (chunksSucc 99 ids).foldl
            (fun acc c => acc.augment (bulk c).includes) ({} : ResponseIncludes) }) := by
  refine ⟨?_, ?_, ?_⟩
  · intro h
    rw [h]
    rfl
  · intro i h
    rw [h]
    rfl
  · intro hlen
    match ids, hlen with
    | a :: b :: rest, _ =>
      refine ⟨rfl, chunksSucc_flatten 99 (a :: b :: rest), chunksSucc_length 99 (a :: b :: rest), ?_⟩
      show ((chunksSucc 99 (a :: b :: rest)).foldl
          (fun base c =>
            { data := base.data ++ (bulk c).data
              includes := base.includes.augment (bulk c).includes })
          ({} : TweetBundle)) = _
      rw [retrieve_foldl bulk (chunksSucc 99 (a :: b :: rest)) {}]
      rfl

/-- Witness for C9: two IDs fall into a single bulk chunk whose response is
passed through unchanged. -/
theorem C9_witness :
    ((["1", "2"] : List String) = [] →
      retrieve (fun i => (⟨i, Option.none, Option.none, [], Option.none, []⟩, {}))
        (fun c => ⟨c.map fun i => ⟨i, Option.none, Option.none, [], Option.none, []⟩, {}⟩)
        ["1", "2"] = ([], {})) ∧
    (∀ i, (["1", "2"] : List String) = [i] →
      retrieve (fun i => (⟨i, Option.none, Option.none, [], Option.none, []⟩, {}))
        (fun c => ⟨c.map fun i => ⟨i, Option.none, Option.none, [], Option.none, []⟩, {}⟩)
        ["1", "2"] =
        ([TweetRequest.single i],
          { data := [⟨i, Option.none, Option.none, [], Option.none, []⟩],
            includes := ({} : ResponseIncludes) })) ∧
    (2 ≤ (["1", "2"] : List String).length →
      (retrieve (fun i => (⟨i, Option.none, Option.none, [], Option.none, []⟩, {}))
        (fun c => ⟨c.map fun i => ⟨i, Option.none, Option.none, [], Option.none, []⟩, {}⟩)
        ["1", "2"]).1 = (chunksSucc 99 ["1", "2"]).map TweetRequest.bulk ∧
      (chunksSucc 99 ["1", "2"]).flatten = ["1", "2"] ∧
      (∀ c ∈ chunksSucc 99 ["1", "2"], 1 ≤ c.length ∧ c.length ≤ 100) ∧
      (retrieve (fun i => (⟨i, Option.none, Option.none, [], Option.none, []⟩, {}))
        (fun c => ⟨c.map fun i => ⟨i, Option.none, Option.none, [], Option.none, []⟩, {}⟩)
        ["1", "2"]).2 =
        { data := ((chunksSucc 99 ["1", "2"]).map fun c =>
            ((fun c => (⟨c.map fun i =>
              (⟨i, Option.none, Option.none, [], Option.none, []⟩ : Tweet), {}⟩ : TweetBundle)) c).data).flatten
          includes := (chunksSucc 99 ["1", "2"]).foldl
            (fun acc c => acc.augment
              ((fun c => (⟨c.map fun i =>
                (⟨i, Option.none, Option.none, [], Option.none, []⟩ : Tweet), {}⟩ : TweetBundle)) c).includes)
            ({} : ResponseIncludes) }) :=
  C9_retrieve_batches
    (fun i => (⟨i, Option.none, Option.none, [], Option.none, []⟩, {}))
    (fun c => ⟨c.map fun i => ⟨i, Option.none, Option.none, [], Option.none, []⟩, {}⟩)
    ["1", "2"]
